import Mathlib

/-!
Verification model of the redis-rust server.

Byte strings (`bytes::Bytes`, UTF-8 `String` contents) are modelled as
`List Nat` of byte values.  The RESP codec of `src/resp.rs` is embedded with
the cursor represented by its remaining suffix: every primitive of the source
(`get_u8`, `peak_u8`, `get_line`, `get_decimal`, `skip`) only ever reads from
the current position onward, so a cursor `(buf, pos)` is represented by
`buf.drop pos` and "the consumed length" by the difference of list lengths.

Rust panics (`unwrap`, `panic!`, `unimplemented!`, the `assert!` inside
`bytes::Buf::advance`, out-of-range slicing) are modelled by an explicit
`crash` outcome.
-/

namespace RedisModel

/-- Byte strings are lists of byte values. -/
abbrev Str := List Nat

/-- ASCII string literal to byte list (every literal used here is ASCII,
where the char code equals the UTF-8 byte). -/
def str (s : String) : Str := s.data.map Char.toNat

/-- ASCII lowercasing; models `str::to_lowercase` on the ASCII inputs the
claims exercise (Rust's version is Unicode-aware). -/
def asciiLower (s : Str) : Str := s.map (fun b => if 65 ≤ b ∧ b ≤ 90 then b + 32 else b)

/-- Decimal ASCII digits of `n`, most significant first, as produced by
`format!` / `write!` with `{}` on an unsigned integer. -/
def natToDec (n : Nat) : Str :=
  if n < 10 then [48 + n]
  else natToDec (n / 10) ++ [48 + n % 10]
decreasing_by exact Nat.div_lt_self (by omega) (by omega)

/-- ASCII decimal digit test. -/
def isDigitB (b : Nat) : Bool := decide (48 ≤ b ∧ b ≤ 57)

/-- Value of a digit string (exact arithmetic). -/
def decFold (l : Str) : Nat := l.foldl (fun acc b => acc * 10 + (b - 48)) 0

/-- Digit-string part of `str::parse::<u64>`: nonempty, all digits, within
the `u64` range (Rust reports `Err` on overflow, modelled by the bound). -/
def parseU64Core (l : Str) : Option Nat :=
  if l ≠ [] ∧ l.all isDigitB ∧ decFold l < 2 ^ 64 then some (decFold l) else none

/-- Rust `str::parse::<u64>` on the UTF-8 bytes of the string: an optional
leading `+` sign, then digits. A `-` sign or any other byte fails. -/
def parseU64 (l : Str) : Option Nat :=
  match l with
  | [] => parseU64Core []
  | b :: rest => if b = 43 then parseU64Core rest else parseU64Core (b :: rest)

/-- Helper for `splitDash`: accumulates the current chunk reversed. -/
def splitDashAux : Str → Str → List Str
  | [], acc => [acc.reverse]
  | b :: rest, acc =>
    if b = 45 then acc.reverse :: splitDashAux rest [] else splitDashAux rest (b :: acc)

/-- Rust `str::split('-')` collected to a vector (never empty; keeps empty
chunks, e.g. `"" ↦ [""]` and `"a-" ↦ ["a", ""]`). -/
def splitDash (s : Str) : List Str := splitDashAux s []

/-- Continuation byte test for UTF-8 validation. -/
def isCont (b : Nat) : Bool := decide (128 ≤ b ∧ b ≤ 191)

/-- Continuation-byte validation of one multi-byte UTF-8 sequence whose
first byte is `b`, abstracted over the validation continuing after the
sequence; encodes the strict table of `String::from_utf8` (rejecting
overlong forms, surrogates and values above U+10FFFF). -/
def utf8Multi (cont : Str → Bool) (b : Nat) (rest : Str) : Bool :=
  if 194 ≤ b ∧ b ≤ 223 then
    match rest with
    | c1 :: r => isCont c1 && cont r
    | _ => false
  else if b = 224 then
    match rest with
    | c1 :: c2 :: r => decide (160 ≤ c1 ∧ c1 ≤ 191) && isCont c2 && cont r
    | _ => false
  else if 225 ≤ b ∧ b ≤ 236 then
    match rest with
    | c1 :: c2 :: r => isCont c1 && isCont c2 && cont r
    | _ => false
  else if b = 237 then
    match rest with
    | c1 :: c2 :: r => decide (128 ≤ c1 ∧ c1 ≤ 159) && isCont c2 && cont r
    | _ => false
  else if 238 ≤ b ∧ b ≤ 239 then
    match rest with
    | c1 :: c2 :: r => isCont c1 && isCont c2 && cont r
    | _ => false
  else if b = 240 then
    match rest with
    | c1 :: c2 :: c3 :: r => decide (144 ≤ c1 ∧ c1 ≤ 191) && isCont c2 && isCont c3 && cont r
    | _ => false
  else if 241 ≤ b ∧ b ≤ 243 then
    match rest with
    | c1 :: c2 :: c3 :: r => isCont c1 && isCont c2 && isCont c3 && cont r
    | _ => false
  else if b = 244 then
    match rest with
    | c1 :: c2 :: c3 :: r => decide (128 ≤ c1 ∧ c1 ≤ 143) && isCont c2 && isCont c3 && cont r
    | _ => false
  else false

/-- Fueled UTF-8 validation (each step consumes at least one byte, so a
fuel equal to the length is always enough). -/
def utf8ValidF : Nat → Str → Bool
  | 0, l => l.isEmpty
  | fuel + 1, l =>
    match l with
    | [] => true
    | b :: rest =>
      if b ≤ 127 then utf8ValidF fuel rest else utf8Multi (utf8ValidF fuel) b rest

/-- Strict UTF-8 validity of a byte list, as checked by
`String::from_utf8`. -/
def utf8Valid (l : Str) : Bool := utf8ValidF l.length l

/-- True when the byte list contains no adjacent `\r\n` pair. -/
def noCRLFpair : Str → Bool
  | [] => true
  | [_] => true
  | a :: b :: rest => if a = 13 ∧ b = 10 then false else noCRLFpair (b :: rest)

/-- The RESP value type of `src/resp.rs`. -/
inductive RESP where
  | simple (text : Str)
  | error (text : Str)
  | integer (n : Nat)
  | bulk (data : Str)
  | file (data : Str)
  | null
  | array (items : List RESP)
deriving Repr

/-- Outcome of a codec primitive.  `crash` models a Rust panic,
`fuelOut` is a model artifact for the recursion bound (never reached when
the fuel exceeds the nesting depth of the frame). -/
inductive POut (α : Type) where
  | ok (a : α)
  | incomplete
  | invalid
  | crash
  | fuelOut
deriving DecidableEq, Repr

/-- Sequencing of codec steps; models Rust `?` on `Result<_, RESPError>`. -/
def POut.bind {α β : Type} : POut α → (α → POut β) → POut β
  | .ok a, f => f a
  | .incomplete, _ => .incomplete
  | .invalid, _ => .invalid
  | .crash, _ => .crash
  | .fuelOut, _ => .fuelOut

/-- `get_u8`: consume one byte; `Incomplete` when no byte remains. -/
def getU8 : Str → POut (Nat × Str)
  | [] => .incomplete
  | b :: rest => .ok (b, rest)

/-- `peak_u8`: look at the next byte without consuming. -/
def peakU8 : Str → POut Nat
  | [] => .incomplete
  | b :: _ => .ok b

/-- `skip`: `bytes::Buf::advance(n)`, whose `assert!` panics when `n`
exceeds the remaining length. -/
def skipN (n : Nat) (c : Str) : POut Str :=
  if n ≤ c.length then .ok (c.drop n) else .crash

/-- `get_line`: scan for the first `\r\n`; the source scans indices
`pos..len-1` of the full buffer, i.e. every adjacent pair of the remaining
suffix; returns the line and the suffix after the terminator, or
`Incomplete` when no terminator is found. -/
def getLine : Str → POut (Str × Str)
  | a :: b :: rest =>
    if a = 13 ∧ b = 10 then .ok ([], rest)
    else
      match getLine (b :: rest) with
      | .ok (l, r) => .ok (a :: l, r)
      | .incomplete => .incomplete
      | .invalid => .invalid
      | .crash => .crash
      | .fuelOut => .fuelOut
  | _ => .incomplete

/-- `get_decimal`: read a line, UTF-8 decode it (failure is an `Other`
error, modelled `invalid`), then `parse().unwrap()` — the unwrap PANICS on
a non-numeric or out-of-range line. -/
def getDecimal (c : Str) : POut (Nat × Str) :=
  (getLine c).bind fun lr =>
    if utf8Valid lr.1 then
      match parseU64 lr.1 with
      | some n => .ok (n, lr.2)
      | none => .crash
    else .invalid

/-- The `for _ in 0..len { Self::check(src)?; }` loop of the array branch
of `check`, abstracted over the recursive call. -/
def checkManyF (chk : Str → POut Str) : Nat → Str → POut Str
  | 0, c => .ok c
  | n + 1, c => (chk c).bind fun c1 => checkManyF chk n c1

/-- `RESP::check` (src/resp.rs lines 142-200), fueled for the nested
array recursion (one fuel unit per nesting level); returns the suffix
after the validated frame. -/
def check : Nat → Str → POut Str
  | 0, _ => .fuelOut
  | fuel + 1, c =>
    (getU8 c).bind fun bc =>
      if bc.1 = 43 then (getLine bc.2).bind fun lr =>
        if utf8Valid lr.1 then .ok lr.2 else .invalid
      else if bc.1 = 42 then (getDecimal bc.2).bind fun lc =>
        checkManyF (check fuel) lc.1 lc.2
      else if bc.1 = 36 then (peakU8 bc.2).bind fun pb =>
        if pb = 45 then skipN 4 bc.2
        else
          (getDecimal bc.2).bind fun lc =>
            (skipN lc.1 lc.2).bind fun c3 =>
              match c3 with
              | [] => .ok []
              | [_] => .crash
              | x :: y :: r2 => if x = 13 ∧ y = 10 then .ok r2 else .ok (x :: y :: r2)
      else if bc.1 = 58 then (getDecimal bc.2).bind fun lc => .ok lc.2
      else if bc.1 = 45 then (getLine bc.2).bind fun lr =>
        if utf8Valid lr.1 then .ok lr.2 else .invalid
      else if bc.1 = 95 then .ok bc.2
      else .invalid

/-- The element loop of the array branch of `parse_resp`, abstracted over
the recursive call. -/
def parseManyF (prs : Str → POut (RESP × Str)) : Nat → Str → POut (List RESP × Str)
  | 0, c => .ok ([], c)
  | n + 1, c =>
    (prs c).bind fun vc =>
      (parseManyF prs n vc.2).bind fun xs => .ok (vc.1 :: xs.1, xs.2)

/-- `RESP::parse_resp` (src/resp.rs lines 71-138), fueled like `check`;
returns the parsed value and the suffix after it. -/
def parseResp : Nat → Str → POut (RESP × Str)
  | 0, _ => .fuelOut
  | fuel + 1, c =>
    (getU8 c).bind fun bc =>
      if bc.1 = 43 then (getLine bc.2).bind fun lr =>
        if utf8Valid lr.1 then .ok (.simple lr.1, lr.2) else .invalid
      else if bc.1 = 42 then (getDecimal bc.2).bind fun lc =>
        (parseManyF (parseResp fuel) lc.1 lc.2).bind fun xs => .ok (.array xs.1, xs.2)
      else if bc.1 = 36 then (peakU8 bc.2).bind fun pb =>
        if pb = 45 then (getLine bc.2).bind fun lr =>
          if lr.1 ≠ [45, 49] then .invalid else .ok (.null, lr.2)
        else
          (getDecimal bc.2).bind fun lc =>
            if lc.2.length < lc.1 then .incomplete
            else
              let data := lc.2.take lc.1
              let c3 := lc.2.drop lc.1
              match c3 with
              | [] => .ok (.file data, [])
              | [_] => .crash
              | x :: y :: r2 =>
                if x = 13 ∧ y = 10 then .ok (.bulk data, r2)
                else .ok (.file data, x :: y :: r2)
      else if bc.1 = 58 then (getDecimal bc.2).bind fun lc => .ok (.integer lc.1, lc.2)
      else if bc.1 = 45 then (getLine bc.2).bind fun lr =>
        if utf8Valid lr.1 then .ok (.error lr.1, lr.2) else .invalid
      else if bc.1 = 95 then .ok (.null, bc.2)
      else .invalid

/-- `write_decimal` (src/connection.rs lines 207-220): formats into a
2-byte scratch buffer — the source says `[0u8, 20]`, a two-element array,
not `[0u8; 20]` — so values of three or more digits fail the inner
`write!` and the `unwrap` PANICS (`none`). -/
def writeDecimal (v : Nat) : Option Str :=
  if (natToDec v).length ≤ 2 then some (natToDec v ++ [13, 10]) else none

mutual

/-- `Connection::write_value` (src/connection.rs lines 159-204): the bytes
put on the wire for one RESP value (`none` models the `write_decimal`
panic).  The array arm of the source calls `write_frame` per element,
which emits exactly these bytes again. -/
def writeValue : RESP → Option Str
  | .null => some [36, 45, 49, 13, 10]
  | .error s => some (45 :: s ++ [13, 10])
  | .simple s => some (43 :: s ++ [13, 10])
  | .integer n => (writeDecimal n).map (fun d => 58 :: d)
  | .bulk d => (writeDecimal d.length).map (fun l => 36 :: l ++ d ++ [13, 10])
  | .file d => (writeDecimal d.length).map (fun l => 36 :: l ++ d)
  | .array items =>
    match writeDecimal items.length, writeList items with
    | some d, some body => some (42 :: d ++ body)
    | _, _ => none

/-- The element loop of the array arm. -/
def writeList : List RESP → Option Str
  | [] => some []
  | v :: vs =>
    match writeValue v, writeList vs with
    | some b, some bs => some (b ++ bs)
    | _, _ => none

end

/-- `Connection::write_frame` (src/connection.rs lines 135-156): top-level
entry that special-cases arrays and otherwise delegates to `write_value`. -/
def writeFrame (resp : RESP) : Option Str :=
  match resp with
  | .array items =>
    match writeDecimal items.length, writeList items with
    | some d, some body => some (42 :: d ++ body)
    | _, _ => none
  | v => writeValue v

/-! ## Keyspace model (src/db.rs, src/value.rs) -/

/-- A stream entry (`StreamData`): id `(milliseconds, sequence)` and the
field pairs; the `HashMap` is modelled as an insertion-ordered
association list (iteration order is not relied on by any theorem). -/
structure StreamData where
  id : Nat × Nat
  pairs : List (Str × Str)
deriving Repr

/-- `ValueType`: a key holds a byte string or a stream. -/
inductive ValueType where
  | str (b : Str)
  | stream (entries : List StreamData)
deriving Repr

/-- `Value`: stored data plus the optional absolute expiry instant
(milliseconds on an abstract clock); `_created_at` is omitted (it is not
read by any modelled path). -/
structure Value where
  expiresAt : Option Nat
  data : ValueType
deriving Repr

/-- `HashMap::get` on an association list. -/
def assocLookup {β : Type} (k : Str) : List (Str × β) → Option β
  | [] => none
  | (k2, v) :: r => if k2 = k then some v else assocLookup k r

/-- `HashMap::insert`: replace in place or append. -/
def assocInsert {β : Type} (k : Str) (v : β) : List (Str × β) → List (Str × β)
  | [] => [(k, v)]
  | (k2, v2) :: r => if k2 = k then (k, v) :: r else (k2, v2) :: assocInsert k v r

/-- `HashMap::remove`. -/
def assocRemove {β : Type} (k : Str) (l : List (Str × β)) : List (Str × β) :=
  l.filter (fun p => decide (p.1 ≠ k))

/-- Lexicographic byte-string order (the `Ord` of Rust `String`). -/
def strLt : Str → Str → Bool
  | [], [] => false
  | [], _ :: _ => true
  | _ :: _, [] => false
  | a :: ra, b :: rb => if a < b then true else if b < a then false else strLt ra rb

/-- The `Ord` of `(Instant, String)` pairs used by the `BTreeSet`. -/
def pairLt (p q : Nat × Str) : Bool :=
  decide (p.1 < q.1) || (decide (p.1 = q.1) && strLt p.2 q.2)

/-- `BTreeSet::insert` on the sorted, duplicate-free expiry index. -/
def expInsert (p : Nat × Str) : List (Nat × Str) → List (Nat × Str)
  | [] => [p]
  | q :: r => if pairLt p q then p :: q :: r else if p = q then q :: r else q :: expInsert p r

/-- `State` (src/db.rs lines 34-45): the entry map and the expiry index
(replication id fields are omitted; no claim touches them). -/
structure State where
  entries : List (Str × Value)
  expirations : List (Nat × Str)
deriving Repr

/-- `Db::get` (src/db.rs lines 88-103): clones the stored data out,
ignoring `expires_at`. -/
def dbGet (key : Str) (st : State) : Option ValueType :=
  (assocLookup key st.entries).map (fun v => v.data)

/-- `Db::set` (src/db.rs lines 126-140): record `expires_at = now + ttl`
in the index when a TTL is given — the previous index entry for the key is
NOT removed — then insert the entry. -/
def dbSet (now : Nat) (key : Str) (value : ValueType) (expiresAfter : Option Nat)
    (st : State) : State :=
  let expiresAt := expiresAfter.map (fun d => now + d)
  let st1 :=
    match expiresAt with
    | some t => { st with expirations := expInsert (t, key) st.expirations }
    | none => st
  { st1 with entries := assocInsert key ⟨expiresAt, value⟩ st1.entries }

/-- `SharedDb::clear_expired_keys` (src/db.rs lines 185-206): pop index
pairs in order; at the first pair with a future instant return it as the
next wake-up; otherwise remove the PAIRED KEY from the map (no check of
the key's own current expiry) and the pair, and continue. -/
def clearLoop (now : Nat) (entries : List (Str × Value)) :
    List (Nat × Str) → (List (Str × Value) × List (Nat × Str)) × Option Nat
  | [] => ((entries, []), none)
  | (t, k) :: rest =>
    if t > now then ((entries, (t, k) :: rest), some t)
    else clearLoop now (assocRemove k entries) rest

/-- `clear_expired_keys` assembled on the `State`. -/
def clearExpiredKeys (now : Nat) (st : State) : State × Option Nat :=
  let r := clearLoop now st.entries st.expirations
  (⟨r.1.1, r.1.2⟩, r.2)

/-! ## Command parsing (src/command/mod.rs and the per-command files) -/

/-- The typed extraction of `RespReader::next_string`: `Simple` passes
through, `Bulk` is UTF-8 decoded, anything else is a type mismatch. -/
def strOf? : RESP → Option Str
  | .simple s => some s
  | .bulk d => if utf8Valid d then some d else none
  | _ => none

/-- `RespReader::next_byte`: `Simple` or `Bulk`, no UTF-8 check. -/
def bytesOf? : RESP → Option Str
  | .simple s => some s
  | .bulk d => some d
  | _ => none

/-- `RespReader::next_int`: `Integer` directly, `Simple`/`Bulk` through
`convert_*_to_u64` (UTF-8 decode then `parse::<u64>`). -/
def intOf? : RESP → Option Nat
  | .integer n => some n
  | .simple s => parseU64 s
  | .bulk d => if utf8Valid d then parseU64 d else none
  | _ => none

/-- Result of a `RespReader` step: `ok` carries the remaining elements;
`endOfStream` and `other` mirror `RespReaderError` (note `next()` consumes
the mismatched element before `other` is reported). -/
inductive RRes (α : Type) where
  | ok (a : α) (rest : List RESP)
  | endOfStream
  | other (rest : List RESP)

/-- `RespReader::next_string`. -/
def nextString : List RESP → RRes Str
  | [] => .endOfStream
  | x :: r =>
    match strOf? x with
    | some s => .ok s r
    | none => .other r

/-- `RespReader::next_byte`. -/
def nextByte : List RESP → RRes Str
  | [] => .endOfStream
  | x :: r =>
    match bytesOf? x with
    | some s => .ok s r
    | none => .other r

/-- `RespReader::next_int`. -/
def nextInt : List RESP → RRes Nat
  | [] => .endOfStream
  | x :: r =>
    match intOf? x with
    | some n => .ok n r
    | none => .other r

/-- A stream filter of XREAD (`created_at_filter` is modelled by the
`dollar` flag set for the `$` id). -/
structure StreamFilterM where
  key : Str
  id : Nat × Nat
  dollar : Bool
deriving Repr

/-- The `Command` enum (src/command/mod.rs lines 46-67) with the payloads
produced by each `from_parts`. -/
inductive Command where
  | config (command key : Str)
  | echo (msg : Option Str)
  | get (key : Str)
  | info (infoSection : Str)
  | ping (msg : Option Str)
  | replconf (values : List Str)
  | psync (key value : Str)
  | set (key value : Str) (expire : Option Nat)
  | unknown (name : Str)
  | wait (numReplicas timeout : Nat)
  | keys (key : Str)
  | typeCmd (key : Str)
  | xadd (key : Str) (streamId : Option Str) (fields : List (Str × Str))
  | xrange (key : Str) (start stop : Nat × Nat) (mode : Option Str)
  | xread (streams : List StreamFilterM) (block : Option Nat)
  | incr (key : Str)
  | multi
  | exec
  | discard
deriving Repr

/-- Outcome of `Command::from_resp`: `crash` models the
`panic!("Unexpected command")` arm and panics inside `from_parts`. -/
inductive FromRespOut where
  | ok (c : Command)
  | err
  | crash
deriving Repr

/-- `get_range_value` (src/command/stream/xrange.rs lines 14-25, identical
in xread.rs): split on `-`, `parse().unwrap()` both parts (`none` models
the unwrap panic; a missing second part defaults to 0). -/
def getRangeValue (s : Str) : Option (Nat × Nat) :=
  let ids := splitDash s
  match ids.get? 0 with
  | none => none
  | some t =>
    match parseU64 t with
    | none => none
    | some ms =>
      match ids.get? 1 with
      | none => some (ms, 0)
      | some t2 => (parseU64 t2).map (fun sq => (ms, sq))

/-- `Set::from_parts` (src/command/set.rs): key, value, then an optional
`PX`/`EX` argument; any other third argument is an error, a missing or
mismatched one leaves the TTL empty. The expiry is normalised to
milliseconds. -/
def setFromParts (r : List RESP) : FromRespOut ⊕ (Str × Str × Option Nat) × List RESP :=
  match nextString r with
  | .ok key r1 =>
    match nextByte r1 with
    | .ok value r2 =>
      match nextString r2 with
      | .ok s r3 =>
        if asciiLower s = str ("px") then
          match nextInt r3 with
          | .ok dur r4 => .inr ((key, value, some dur), r4)
          | _ => .inl .err
        else if asciiLower s = str ("ex") then
          match nextInt r3 with
          | .ok dur r4 => .inr ((key, value, some (dur * 1000)), r4)
          | _ => .inl .err
        else .inl .err
      | .endOfStream => .inr ((key, value, none), [])
      | .other r3 => .inr ((key, value, none), r3)
    | _ => .inl .err
  | _ => .inl .err

/-- The field-pair loop of `XAdd::from_parts` (src/command/stream/xadd.rs
lines 38-45): read field names while they are strings; a value must follow
each field (`?`); a non-string element consumes it and stops the loop. -/
def xaddPairsLoop : List RESP → List (Str × Str) → FromRespOut ⊕ List (Str × Str) × List RESP
  | [], pairs => .inr (pairs, [])
  | x :: r, pairs =>
    match strOf? x with
    | none => .inr (pairs, r)
    | some f =>
      match r with
      | [] => .inl .err
      | y :: r2 =>
        match strOf? y with
        | some v => xaddPairsLoop r2 (assocInsert f v pairs)
        | none => .inl .err

/-- The value loop of `Replconf::from_parts` (src/command/replconf.rs
lines 278-289): collect strings until the reader mismatches or ends. -/
def replconfLoop : List RESP → List Str → List Str × List RESP
  | [], acc => (acc, [])
  | x :: r, acc =>
    match strOf? x with
    | some s => replconfLoop r (acc ++ [s])
    | none => (acc, r)

/-- The argument loop of `XRead::from_parts` (src/command/stream/xread.rs
lines 52-72). The match is on the LOWERCASED token, and the default arm
pushes that lowercased token; `count` hits `unimplemented!`. Returns
`(block, keys, ids, rest)`. -/
def xreadLoop : List RESP → Option Nat → List Str → List Str →
    FromRespOut ⊕ (Option Nat × List Str × List Str) × List RESP
  | [], block, keysAcc, idsAcc => .inr ((block, keysAcc, idsAcc), [])
  | x :: r, block, keysAcc, idsAcc =>
    match strOf? x with
    | none => .inr ((block, keysAcc, idsAcc), r)
    | some nxt =>
      let l := asciiLower nxt
      if l = str ("block") then
        match r with
        | [] => .inl .err
        | y :: r2 =>
          match intOf? y with
          | some n => xreadLoop r2 (some n) keysAcc idsAcc
          | none => .inl .err
      else if l = str ("streams") then xreadLoop r block keysAcc idsAcc
      else if l = str ("count") then .inl .crash
      else if l = str ("$") then xreadLoop r block keysAcc (idsAcc ++ [str ("$")])
      else
        if (splitDash l).length = 2 then xreadLoop r block keysAcc (idsAcc ++ [l])
        else xreadLoop r block (keysAcc ++ [l]) idsAcc

/-- The filter-building loop of `XRead::from_parts` (lines 74-93); `none`
models the `get_range_value` unwrap panic. -/
def xreadFiltersGo : List Str → List Str → Nat → Option (List StreamFilterM)
  | [], _, _ => some []
  | k :: ks, ids, idx =>
    let id := (ids.get? idx).getD (str ("0-0"))
    if id = str ("$") then
      (xreadFiltersGo ks ids (idx + 1)).map (fun fs => ⟨k, (0, 0), true⟩ :: fs)
    else
      match getRangeValue id with
      | none => none
      | some v => (xreadFiltersGo ks ids (idx + 1)).map (fun fs => ⟨k, v, false⟩ :: fs)

/-- `XRange::from_parts` (src/command/stream/xrange.rs lines 40-70): a
first token `-` takes start `(0,0)` and parses the NEXT token with
`get_range_value` unconditionally (so `+` panics there); otherwise the
start is parsed and a `+` end sets the open-end mode. -/
def xrangeFromParts (r : List RESP) :
    FromRespOut ⊕ (Str × (Nat × Nat) × (Nat × Nat) × Option Str) × List RESP :=
  match nextString r with
  | .ok key r1 =>
    match nextString r1 with
    | .ok rom r2 =>
      if rom = str ("-") then
        match nextString r2 with
        | .ok es r3 =>
          match getRangeValue es with
          | none => .inl .crash
          | some e => .inr ((key, (0, 0), e, some rom), r3)
        | _ => .inl .err
      else
        match getRangeValue rom with
        | none => .inl .crash
        | some s =>
          match nextString r2 with
          | .ok value r3 =>
            if value = str ("+") then .inr ((key, s, (0, 0), some value), r3)
            else
              match getRangeValue value with
              | none => .inl .crash
              | some e => .inr ((key, s, e, none), r3)
          | _ => .inl .err
    | _ => .inl .err
  | _ => .inl .err

/-- `Command::from_resp` (src/command/mod.rs lines 74-106): wrap the array
in a reader, read the command name, dispatch to `from_parts`, then
`finish()` must find the reader exhausted.  An UNKNOWN NAME hits
`panic!("Unexpected command")`, modelled `crash`. -/
def fromRespCore (items : List RESP) : FromRespOut ⊕ Command × List RESP :=
  match nextString items with
    | .endOfStream => .inl .err
    | .other _ => .inl .err
    | .ok name rest =>
      let n := asciiLower name
      if n = str ("echo") then
        match nextByte rest with
        | .ok msg r1 => .inr (Command.echo (some msg), r1)
        | .endOfStream => .inr (Command.echo none, [])
        | .other _ => .inl .err
      else if n = str ("config") then
        match nextString rest with
        | .ok cm r1 =>
          match nextString r1 with
          | .ok k r2 => .inr (Command.config cm k, r2)
          | _ => .inl .err
        | _ => .inl .err
      else if n = str ("ping") then
        match nextByte rest with
        | .ok msg r1 => .inr (Command.ping (some msg), r1)
        | .endOfStream => .inr (Command.ping none, [])
        | .other _ => .inl .err
      else if n = str ("set") then
        match setFromParts rest with
        | .inl e => .inl e
        | .inr ((k, v, ex), r1) => .inr (Command.set k v ex, r1)
      else if n = str ("incr") then
        match nextString rest with
        | .ok k r1 => .inr (Command.incr k, r1)
        | _ => .inl .err
      else if n = str ("get") then
        match nextString rest with
        | .ok k r1 => .inr (Command.get k, r1)
        | _ => .inl .err
      else if n = str ("info") then
        match nextString rest with
        | .ok s r1 =>
          if asciiLower s = str ("replication") then .inr (Command.info s, r1) else .inl .err
        | _ => .inl .err
      else if n = str ("replconf") then
        match replconfLoop rest [] with
        | (vals, r1) => .inr (Command.replconf vals, r1)
      else if n = str ("psync") then
        match nextString rest with
        | .ok k r1 =>
          match nextString r1 with
          | .ok v r2 => .inr (Command.psync k v, r2)
          | _ => .inl .err
        | _ => .inl .err
      else if n = str ("wait") then
        match nextInt rest with
        | .ok k r1 =>
          match nextInt r1 with
          | .ok t r2 => .inr (Command.wait k t, r2)
          | _ => .inl .err
        | _ => .inl .err
      else if n = str ("keys") then
        match nextString rest with
        | .ok k r1 => .inr (Command.keys k, r1)
        | _ => .inl .err
      else if n = str ("type") then
        match nextString rest with
        | .ok k r1 => .inr (Command.typeCmd k, r1)
        | _ => .inl .err
      else if n = str ("xadd") then
        match nextString rest with
        | .ok k r1 =>
          match nextString r1 with
          | .ok sid r2 =>
            match xaddPairsLoop r2 [] with
            | .inl e => .inl e
            | .inr (pairs, r3) => .inr (Command.xadd k (some sid) pairs, r3)
          | _ => .inl .err
        | _ => .inl .err
      else if n = str ("xrange") then
        match xrangeFromParts rest with
        | .inl e => .inl e
        | .inr ((k, s, e, m), r1) => .inr (Command.xrange k s e m, r1)
      else if n = str ("xread") then
        match xreadLoop rest none [] [] with
        | .inl e => .inl e
        | .inr ((block, keysAcc, idsAcc), r1) =>
          match xreadFiltersGo keysAcc idsAcc 0 with
          | none => .inl .crash
          | some fs => .inr (Command.xread fs block, r1)
      else if n = str ("multi") then .inr (Command.multi, rest)
      else if n = str ("exec") then .inr (Command.exec, rest)
      else if n = str ("discard") then .inr (Command.discard, rest)
      else .inl .crash

/-- `Command::from_resp` assembled: dispatch, then `finish()` requires the
reader to be exhausted. -/
def fromResp : RESP → FromRespOut
  | .array items =>
    match fromRespCore items with
    | .inl e => e
    | .inr (c, rest) => if rest.isEmpty then .ok c else .err
  | _ => .err

/-! ## Command application (the pure `apply` methods) -/

/-- Outcome of one `Command::apply`: a new keyspace and an optional RESP
reply (`None` means "already written to the socket"), or a panic. -/
inductive ApplyOut where
  | crash
  | res (db : State) (reply : Option RESP)
deriving Repr

/-- `Set::apply` (src/command/set.rs): store and reply `+OK`. -/
def setApply (now : Nat) (key value : Str) (expire : Option Nat) (db : State) : State × RESP :=
  (dbSet now key (.str value) expire db, .simple (str ("OK")))

/-- `Get::apply` (src/command/get.rs): bulk for a string value, Null for a
stream value or an absent key (expiry is not consulted). -/
def getApply (key : Str) (db : State) : RESP :=
  match dbGet key db with
  | some (.str b) => .bulk b
  | some (.stream _) => .null
  | none => .null

/-- `Incr::apply` (src/command/incr.rs lines 29-59): absent key stores
`"1"` and replies `:1`; a string value is `from_utf8(..).unwrap()`ed
(PANIC on non-UTF-8) then parsed as `u64` — parse failure replies the
canonical error, success stores and replies `n+1` (the `int + 1` overflow
at `u64::MAX` panics in a debug build, modelled `crash`); a stream value
hits `unimplemented!("The value is a stream")`, a PANIC. -/
def incrApply (now : Nat) (key : Str) (db : State) : ApplyOut :=
  match dbGet key db with
  | some (.str v) =>
    if utf8Valid v then
      match parseU64 v with
      | some n =>
        if n + 1 < 2 ^ 64 then
          .res (dbSet now key (.str (natToDec (n + 1))) none db) (some (.integer (n + 1)))
        else .crash
      | none => .res db (some (.error (str ("ERR value is not an integer or out of range"))))
    else .crash
  | some (.stream _) => .crash
  | none => .res (dbSet now key (.str [49]) none db) (some (.integer 1))

/-- `XAdd::is_stream_id_valid` (src/command/stream/xadd.rs lines 55-79):
split the id on `-`; more than two parts is invalid; two parts with a `0`
sequence are valid only for a nonzero first part; a single part is valid
only when it is `*`. -/
def isStreamIdValid (streamId : Option Str) : Bool :=
  match splitDash (streamId.getD []) with
  | [] => true
  | [a] => decide (a = [42])
  | [a, b] => if b = [48] then decide (a ≠ [48]) else true
  | _ => false

/-- Rust tuple order on `(u64, u64)` stream ids. -/
def idLt (a b : Nat × Nat) : Bool :=
  decide (a.fst < b.fst) || (decide (a.fst = b.fst) && decide (a.snd < b.snd))

/-- The `next_sequence_id` block of `XAdd::apply` (lines 138-172): for a
`*` first part the sequence is 0 (1 when a second part exists); otherwise
the first part is `parse().unwrap()`ed (PANIC on failure, `none`) and the
LAST entry with that millisecond gives `last + 1`, else 1 for the literal
string `"0"` and 0 otherwise. -/
def xaddNextSeq (streamId : Option Str) (streams : List StreamData) : Option Nat :=
  let ids := splitDash (streamId.getD [])
  match ids.get? 0 with
  | none => none
  | some t0 =>
    if t0 = [42] then some (if ids.length = 1 then 0 else 1)
    else
      match parseU64 t0 with
      | none => none
      | some timePart =>
        match (streams.reverse).find? (fun sd => decide (sd.id.fst = timePart)) with
        | some sd => some (sd.id.snd + 1)
        | none => some (if t0 = [48] then 1 else 0)

/-- `XAdd::get_stream_id` (lines 81-117): resolve `*` parts to the clock /
the computed next sequence; explicit parts are `parse().unwrap()`ed (PANIC
on failure); a missing stream id unwraps `None` (PANIC). -/
def getStreamId (streamId : Option Str) (nextSeq now : Nat) : Option (Nat × Nat) :=
  match streamId with
  | none => none
  | some sid =>
    let ids := splitDash sid
    let ms? : Option Nat :=
      match ids.get? 0 with
      | some t => if t = [42] then some now else parseU64 t
      | none => some now
    let seq? : Option Nat :=
      match ids.get? 1 with
      | some t => if t = [42] then some nextSeq else parseU64 t
      | none => some nextSeq
    match ms?, seq? with
    | some ms, some sq => some (ms, sq)
    | _, _ => none

/-- `XAdd::apply` (lines 120-206): validate the id form, fetch the prior
stream (a string value or absent key gives an empty stream), resolve the
id, reject a non-monotonic id, append and store, reply the resolved id as
a bulk. -/
def xaddApply (now : Nat) (key : Str) (streamId : Option Str) (fields : List (Str × Str))
    (db : State) : ApplyOut :=
  if ¬ isStreamIdValid streamId then
    .res db (some (.error (str ("ERR The ID specified in XADD must be greater than 0-0"))))
  else
    let streams :=
      match dbGet key db with
      | some (.stream s) => s
      | some (.str _) => []
      | none => []
    match xaddNextSeq streamId streams with
    | none => .crash
    | some nextSeq =>
      match getStreamId streamId nextSeq now with
      | none => .crash
      | some sid =>
        if streams.any (fun sd => !(idLt sd.id sid)) then
          .res db (some (.error
            (str ("ERR The ID specified in XADD is equal or smaller than the target stream top item"))))
        else
          .res (dbSet now key (.stream (streams ++ [⟨sid, fields⟩])) none db)
            (some (.bulk (natToDec sid.fst ++ [45] ++ natToDec sid.snd)))

/-- The ack-collecting task of `Wait::apply` (src/command/wait.rs lines
50-192), projected to its exit condition.  Inputs: requested count `n`,
the connected-replica count, `master_repl_offset` at the start of WAIT,
and the ACK offset each responsive replica reports (an unparseable ACK
reads as 0 via `unwrap_or(0)`; a replica that never answers contributes no
element).  `some k` means the task terminates and the server replies `:k`
regardless of the deadline timer; `none` means only the timer can end the
WAIT.  The target is `min(n, replicaCount)` (lines 60-64); a zero master
offset short-circuits to the full replica count (lines 77-81); otherwise
the poll loop exits once the replicas whose ACK reaches the start offset
meet the target, replying with their total number. -/
def waitCheckTask (n replicaCount masterOffset : Nat) (acks : List Nat) : Option Nat :=
  let target := if n > replicaCount then replicaCount else n
  if masterOffset = 0 then some replicaCount
  else
    let synced := (acks.filter (fun a => decide (masterOffset ≤ a))).length
    if target ≤ synced then some synced else none

/-! ## Per-connection handler (src/server.rs `Handler::run`, primary role) -/

/-- A replica connection as seen from the primary: its pending byte offset
and the frames fanned out to it. -/
structure Replica where
  replOffset : Nat
  sent : List RESP
deriving Repr

/-- The handler state: transaction flag and queue, the shared keyspace,
`master_repl_offset`, and the replica set. -/
structure HState where
  isMulti : Bool
  transaction : List RESP
  db : State
  masterReplOffset : Nat
  replicas : List Replica
deriving Repr

/-- The signature of `Command::apply` as the handler uses it ("`None` is
already-written"); theorems constrain it on the commands they exercise. -/
abbrev ApplyFn := Command → State → ApplyOut

/-- `Command::affects_offset` (src/command/mod.rs lines 175-182): only SET
(also the value of `is_replicable_command`). -/
def affectsOffset : Command → Bool
  | .set _ _ _ => true
  | _ => false

/-- Outcome of the EXEC loop. -/
inductive ExecOut where
  | connErr
  | crash
  | ok (replies : List RESP) (db : State)
deriving Repr

/-- The EXEC branch loop (src/server.rs lines 346-360): re-parse each
queued frame (`?` makes a parse failure a connection error), apply it,
and push the reply when it is `Some`. -/
def execLoop (f : ApplyFn) : List RESP → State → ExecOut
  | [], db => .ok [] db
  | q :: rest, db =>
    match fromResp q with
    | .err => .connErr
    | .crash => .crash
    | .ok c =>
      match f c db with
      | .crash => .crash
      | .res db2 reply =>
        match execLoop f rest db2 with
        | .ok rs db3 => .ok (reply.toList ++ rs) db3
        | e => e

/-- Outcome of one iteration of `Handler::run`. -/
inductive StepOut where
  | connErr
  | crash
  | ok (writes : List RESP) (st : HState)
  | psyncHandoff (st : HState)
deriving Repr

/-- One iteration of `Handler::run` (src/server.rs lines 326-473) for the
primary role on a client connection, given one decoded frame and its byte
length.  In MULTI (lines 338-381): EXEC runs the queue and writes the
collected array, DISCARD clears, anything else is queued with `+QUEUED`.
Outside (lines 382-469): parse, fan the raw frame out to every replica
when the command is SET, handle PSYNC/MULTI/EXEC/DISCARD specials, bump
`master_repl_offset` and every replica's offset by the frame length when
the command affects the offset, then apply and write a `Some` reply.
(Socket failures and the replica-eviction path are not representable in
the pure model; writes always succeed here.) -/
def handlerStep (f : ApplyFn) (st : HState) (resp : RESP) (size : Nat) : StepOut :=
  if st.isMulti then
    match fromResp resp with
    | .err => .connErr
    | .crash => .crash
    | .ok c =>
      match c with
      | .exec =>
        match execLoop f st.transaction st.db with
        | .connErr => .connErr
        | .crash => .crash
        | .ok replies db2 =>
          .ok [.array replies] { st with isMulti := false, transaction := [], db := db2 }
      | .discard =>
        .ok [.simple (str ("OK"))] { st with isMulti := false, transaction := [] }
      | _ =>
        .ok [.simple (str ("QUEUED"))] { st with transaction := st.transaction ++ [resp] }
  else
    match fromResp resp with
    | .err => .connErr
    | .crash => .crash
    | .ok c =>
      let roleWrites : List RESP :=
        match c with
        | .exec => [.error (str ("ERR EXEC without MULTI"))]
        | .discard => [.error (str ("ERR DISCARD without MULTI"))]
        | _ => []
      let st1 : HState :=
        match c with
        | .set _ _ _ =>
          { st with replicas := st.replicas.map (fun r => { r with sent := r.sent ++ [resp] }) }
        | .multi => { st with isMulti := true }
        | _ => st
      match c with
      | .psync _ _ =>
        match f c st1.db with
        | .crash => .crash
        | .res db2 _ => .psyncHandoff { st1 with db := db2 }
      | _ =>
        let st2 : HState :=
          if affectsOffset c then
            { st1 with
              masterReplOffset := st1.masterReplOffset + size,
              replicas := st1.replicas.map (fun r => { r with replOffset := r.replOffset + size }) }
          else st1
        match f c st2.db with
        | .crash => .crash
        | .res db2 reply =>
          .ok (roleWrites ++ reply.toList) { st2 with db := db2 }

/-- Parse every queued frame (specification-side companion of the EXEC
loop). -/
def parseAll : List RESP → Option (List Command)
  | [] => some []
  | q :: rest =>
    match fromResp q with
    | .ok c => (parseAll rest).map (fun cs => c :: cs)
    | _ => none

/-- Specification-side run of a command list: apply in order, thread the
keyspace, collect the `Some` replies in order; `none` when some apply
panics. -/
def specRun (f : ApplyFn) : List Command → State → Option (List RESP × State)
  | [], db => some ([], db)
  | c :: cs, db =>
    match f c db with
    | .crash => none
    | .res db2 r =>
      match specRun f cs db2 with
      | some (rs, db3) => some (r.toList ++ rs, db3)
      | none => none

/-- The final keyspace of a run, independent of the collected replies:
every command is applied, including those that replied an error. -/
def specDb (f : ApplyFn) : List Command → State → State
  | [], db => db
  | c :: cs, db =>
    match f c db with
    | .crash => db
    | .res db2 _ => specDb f cs db2

mutual

/-- Well-formedness for the round-trip statement: `Simple`/`Error` texts
are valid UTF-8 with no embedded CRLF pair (Rust `String`s are always
valid UTF-8; the CRLF restriction is the amendment), and the `File`
variant is excluded (it is covered by its own clause). -/
def wfResp : RESP → Bool
  | .simple s => utf8Valid s && noCRLFpair s
  | .error s => utf8Valid s && noCRLFpair s
  | .integer _ => true
  | .bulk _ => true
  | .null => true
  | .file _ => false
  | .array items => wfList items

/-- Well-formedness of array elements. -/
def wfList : List RESP → Bool
  | [] => true
  | v :: vs => wfResp v && wfList vs

end

/-- The observable outcomes of parsing an encoded `File` payload followed
by `rest` bytes (specification-side; see `parse_file_bytes`). -/
def fileParseSpec (data rest : Str) : POut (RESP × Str) :=
  match rest with
  | [] => .ok (.file data, [])
  | [_] => .crash
  | x :: y :: r2 =>
    if x = 13 ∧ y = 10 then .ok (.bulk data, r2) else .ok (.file data, x :: y :: r2)

/-! ## Concrete instances used by the witnesses -/

/-- A concrete `ApplyFn` for witnesses: the SET / INCR / GET / XADD /
MULTI arms follow the corresponding `apply` sources above; commands not
exercised by any witness reply nothing. -/
def applyModel (now : Nat) : ApplyFn := fun c db =>
  match c with
  | .set k v e => .res (setApply now k v e db).1 (some (setApply now k v e db).2)
  | .incr k => incrApply now k db
  | .get k => .res db (some (getApply k db))
  | .xadd k sid fields => xaddApply now k sid fields db
  | .multi => .res db (some (.simple (str ("OK"))))
  | _ => .res db none

/-- The frame `*3\r\n$3\r\nSET\r\n$1\r\na\r\n$1\r\n1\r\n` decoded. -/
def setFrame : RESP := .array [.bulk (str ("SET")), .bulk (str ("a")), .bulk (str ("1"))]

/-- The frame `INCR a` decoded. -/
def incrFrame : RESP := .array [.bulk (str ("INCR")), .bulk (str ("a"))]

/-- The frame `EXEC` decoded. -/
def execFrame : RESP := .array [.bulk (str ("EXEC"))]

/-- A handler state inside MULTI with `SET a 1` and `INCR a` queued, one
attached replica and a zero master offset. -/
def stMulti : HState := ⟨true, [setFrame, incrFrame], ⟨[], []⟩, 0, [⟨0, []⟩]⟩

/-! ## Theorems -/

/-- `write_frame` emits the same bytes as `write_value`. -/
theorem writeFrame_eq (v : RESP) : writeFrame v = writeValue v := by
  cases v <;> rfl

/-- The EXEC loop coincides with the specification-side run. -/
theorem execLoop_eq_specRun (f : ApplyFn) (queued : List RESP) (db : State)
    (cmds : List Command) (h : parseAll queued = some cmds) :
    execLoop f queued db =
      match specRun f cmds db with
      | some (rs, db2) => .ok rs db2
      | none => .crash := by
  induction queued generalizing cmds db with
  | nil =>
    simp only [parseAll] at h
    cases h
    rfl
  | cons q rest ih =>
    simp only [parseAll] at h
    cases hq : fromResp q with
    | ok c =>
      rw [hq] at h
      cases hrest : parseAll rest with
      | none => rw [hrest] at h; simp at h
      | some cs =>
        rw [hrest] at h
        simp only [Option.map_some] at h  -- cmds = c :: cs
        cases h
        cases hf : f c db with
        | crash => simp [execLoop, hq, hf, specRun]
        | res db2 r =>
          have ihh := ih db2 cs hrest
          cases hs : specRun f cs db2 with
          | none => simp [execLoop, hq, hf, specRun, hs, ihh]
          | some p => simp [execLoop, hq, hf, specRun, hs, ihh]
    | err => rw [hq] at h; simp at h
    | crash => rw [hq] at h; simp at h

/-- A successful run ends in the reply-independent keyspace fold. -/
theorem specRun_db (f : ApplyFn) (cmds : List Command) (db : State)
    (rs : List RESP) (db2 : State) (h : specRun f cmds db = some (rs, db2)) :
    db2 = specDb f cmds db := by
  induction cmds generalizing db rs with
  | nil => simp only [specRun, Option.some_inj] at h; cases h; rfl
  | cons c cs ih =>
    simp only [specRun] at h
    cases hf : f c db with
    | crash => rw [hf] at h; simp at h
    | res db3 r =>
      rw [hf] at h
      simp only at h
      cases hs : specRun f cs db3 with
      | none => rw [hs] at h; simp at h
      | some p =>
        rw [hs] at h
        cases p with
        | mk prs pdb =>
          simp only [Option.some_inj, Prod.mk.injEq] at h
          have hdb : db2 = pdb := h.2.symm
          subst hdb
          simpa only [specDb, hf] using ih db3 prs hs

/-- C1: the claim says `RESP::check` / `RESP::parse_resp` only ever yield
Ok, Incomplete or Invalid, that `Command::from_resp` returns an error for
an unknown command, and that a truncated frame yields Incomplete.  The
code panics instead: on the frame `:a\r\n` both `check` and `parse_resp`
panic in `get_decimal`'s `parse().unwrap()`; on the truncated bulk frame
`$5\r\nab` `check` panics inside `Buf::advance` (instead of returning
Incomplete); and `from_resp` of `*1\r\n$3\r\nFOO\r\n` hits
`panic!("Unexpected command")` instead of returning an error. -/
theorem C1_frame_handling_panics :
    check 5 [58, 97, 13, 10] = .crash
    ∧ parseResp 5 [58, 97, 13, 10] = .crash
    ∧ check 5 [36, 53, 13, 10, 97, 98] = .crash
    ∧ fromResp (.array [.bulk (str ("FOO"))]) = .crash :=
  ⟨rfl, rfl, rfl, rfl⟩

/-- C8: the claim says `XRANGE key - +` replies all entries and does not
fail.  In `XRange::from_parts` the `-` arm parses the following token
with `get_range_value` unconditionally, so the end bound `+` reaches
`"+".parse::<u64>().unwrap()` and PANICS: the command `XRANGE s - +`
crashes the handler during parsing. -/
theorem C8_xrange_open_bounds_crash :
    fromResp (.array [.bulk (str ("XRANGE")), .bulk (str ("s")),
      .bulk (str ("-")), .bulk (str ("+"))]) = .crash
    ∧ getRangeValue (str ("+")) = none :=
  ⟨rfl, rfl⟩

/-- C3 counterexample: key `k` holds a value with NO expiry of its own
(so "the key's own current expiry" has not passed), yet a single stale
index pair `(5, k)` makes the purger remove `k` from the map at
`now = 10`.  The claim said the key's current value stays in the store. -/
theorem C3_counterexample :
    clearExpiredKeys 10 ⟨[(str ("k"), ⟨none, .str (str ("w"))⟩)], [(5, str ("k"))]⟩
      = (⟨[], []⟩, none)
    ∧ (assocLookup (str ("k"))
        [(str ("k"), (⟨none, .str (str ("w"))⟩ : Value))]).map (fun v => v.expiresAt)
      = some none :=
  ⟨rfl, rfl⟩

/-- One purge pass processes exactly the maximal prefix of pairs whose
instant has passed, removing each paired key unconditionally. -/
theorem clearLoop_spec (now : Nat) (entries : List (Str × Value)) (exps : List (Nat × Str)) :
    clearLoop now entries exps =
      (((exps.takeWhile (fun p => decide (p.1 ≤ now))).foldl
          (fun e p => assocRemove p.2 e) entries,
        exps.dropWhile (fun p => decide (p.1 ≤ now))),
       (exps.dropWhile (fun p => decide (p.1 ≤ now))).head?.map (fun p => p.1)) := by
  induction exps generalizing entries with
  | nil => rfl
  | cons p rest ih =>
    cases p with
    | mk t k =>
      by_cases h : t > now
      · have h2 : ¬ (t ≤ now) := by omega
        simp [clearLoop, h, List.takeWhile, List.dropWhile, h2]
      · have h2 : t ≤ now := by omega
        simp [clearLoop, h, List.takeWhile, List.dropWhile, h2, ih]

/-- C3 amended: a stale `(instant, key)` pair is NOT harmless.  One purge
pass removes from the map exactly the keys of the maximal prefix of the
expiry index whose instants have passed — unconditionally, without
consulting the key's own current expiry — drops that prefix from the
index, and reports the instant of the first remaining pair. -/
theorem C3_purger_pops_stale (now : Nat) (st : State) :
    clearExpiredKeys now st =
      (⟨(st.expirations.takeWhile (fun p => decide (p.1 ≤ now))).foldl
          (fun e p => assocRemove p.2 e) st.entries,
        st.expirations.dropWhile (fun p => decide (p.1 ≤ now))⟩,
       (st.expirations.dropWhile (fun p => decide (p.1 ≤ now))).head?.map (fun p => p.1)) := by
  unfold clearExpiredKeys
  rw [clearLoop_spec]

/-- C4 counterexample: `WAIT 5 t` with two connected replicas that have
both acknowledged: the ack-collector's target is `min(5, 2) = 2`, the
task terminates with 2 synced and the server replies `:2` — a count below
`N = 5` — without waiting for the deadline (for any timeout `t`). -/
theorem C4_counterexample :
    waitCheckTask 5 2 1 [1, 1] = some 2 ∧ ¬ (5 ≤ 2) :=
  ⟨rfl, by omega⟩

/-- C4 amended: whenever the ack-collector task terminates by itself (the
reply then happens regardless of the deadline timer), the replied count is
at least `min(N, connected replica count)` — not necessarily `N`. -/
theorem C4_wait_min_bound (n c off : Nat) (acks : List Nat) (k : Nat)
    (h : waitCheckTask n c off acks = some k) : min n c ≤ k := by
  simp only [waitCheckTask] at h
  repeat' split at h
  all_goals
    first
      | (injection h with h2; omega)
      | (exact absurd h (by simp))

/-- C4 witness: with one replica, no propagated writes and `WAIT 1 t`,
the task terminates replying the full replica count 1 ≥ min(1, 1). -/
theorem C4_wait_min_bound_witness : min 1 1 ≤ 1 :=
  C4_wait_min_bound 1 1 0 [] 1 rfl

/-- Every byte of a decimal rendering is an ASCII digit. -/
theorem natToDec_digits (n : Nat) : ∀ b ∈ natToDec n, 48 ≤ b ∧ b ≤ 57 := by
  induction n using Nat.strong_induction_on with
  | _ n ih =>
    rw [natToDec]
    by_cases h : n < 10
    · simp only [if_pos h, List.mem_singleton]
      intro b hb
      subst hb
      omega
    · simp only [if_neg h, List.mem_append, List.mem_singleton]
      intro b hb
      rcases hb with hb | hb
      · exact ih (n / 10) (Nat.div_lt_self (by omega) (by omega)) b hb
      · subst hb
        have := Nat.mod_lt n (show 0 < 10 by omega)
        omega

/-- A decimal rendering is never empty. -/
theorem natToDec_ne_nil (n : Nat) : natToDec n ≠ [] := by
  rw [natToDec]
  by_cases h : n < 10 <;> simp [h]

/-- Folding the digits back recovers the number. -/
theorem decFold_natToDec (n : Nat) : decFold (natToDec n) = n := by
  induction n using Nat.strong_induction_on with
  | _ n ih =>
    rw [natToDec]
    by_cases h : n < 10
    · simp [if_pos h, decFold]
    · rw [if_neg h]
      have hd : decFold (natToDec (n / 10) ++ [48 + n % 10]) =
          decFold (natToDec (n / 10)) * 10 + (48 + n % 10 - 48) := by
        simp [decFold, List.foldl_append]
      rw [hd, ih (n / 10) (Nat.div_lt_self (by omega) (by omega))]
      omega

/-- `parse::<u64>` inverts the decimal rendering (within the u64 range). -/
theorem parseU64_natToDec (n : Nat) (h : n < 2 ^ 64) : parseU64 (natToDec n) = some n := by
  have hall : (natToDec n).all isDigitB = true := by
    rw [List.all_eq_true]
    intro b hb
    exact decide_eq_true (natToDec_digits n b hb)
  have hcore : parseU64Core (natToDec n) = some n := by
    rw [parseU64Core, if_pos ⟨natToDec_ne_nil n, by rw [hall], by rw [decFold_natToDec]; exact h⟩,
      decFold_natToDec]
  cases he : natToDec n with
  | nil => exact absurd he (natToDec_ne_nil n)
  | cons a t =>
    have ha : 48 ≤ a ∧ a ≤ 57 := natToDec_digits n a (by rw [he]; exact List.mem_cons_self a t)
    have ha43 : ¬ (a = 43) := by omega
    rw [← he, he, parseU64, if_neg ha43, ← he, hcore]

/-- The decimal rendering is `"0"` exactly for zero. -/
theorem natToDec_eq_zero_iff (n : Nat) : natToDec n = [48] ↔ n = 0 := by
  constructor
  · intro h
    have := decFold_natToDec n
    rw [h] at this
    simpa [decFold] using this.symm
  · intro h
    subst h
    rw [natToDec]
    norm_num

/-- The decimal rendering is never the string `"*"`. -/
theorem natToDec_ne_star (n : Nat) : natToDec n ≠ [42] := by
  intro h
  have := natToDec_digits n 42 (by rw [h]; exact List.mem_singleton_self 42)
  omega

/-- The decimal rendering contains no dash. -/
theorem natToDec_no_dash (n : Nat) : ∀ b ∈ natToDec n, b ≠ 45 := by
  intro b hb
  have := natToDec_digits n b hb
  omega

/-- `splitDashAux` never yields an empty list. -/
theorem splitDashAux_ne_nil (l : Str) : ∀ acc, splitDashAux l acc ≠ [] := by
  induction l with
  | nil => intro acc; simp [splitDashAux]
  | cons b r ih =>
    intro acc
    by_cases h : b = 45 <;> simp [splitDashAux, h, ih]

/-- `split('-')` never yields an empty vector. -/
theorem splitDash_ne_nil (s : Str) : splitDash s ≠ [] := splitDashAux_ne_nil s []

/-- Splitting a dash-free chunk followed by a dash peels off the chunk. -/
theorem splitDashAux_chunk (l : Str) : ∀ (r : Str) (acc : Str), (∀ b ∈ l, b ≠ 45) →
    splitDashAux (l ++ 45 :: r) acc = (acc.reverse ++ l) :: splitDash r := by
  induction l with
  | nil => intro r acc _; simp [splitDashAux, splitDash]
  | cons b l2 ih =>
    intro r acc h
    have hb : ¬ (b = 45) := h b (List.mem_cons_self b l2)
    have h2 : ∀ x ∈ l2, x ≠ 45 := fun x hx => h x (List.mem_cons_of_mem b hx)
    simp only [List.cons_append, splitDashAux, if_neg hb]
    rw [show l2.append (45 :: r) = l2 ++ 45 :: r from rfl, ih r (b :: acc) h2]
    simp

/-- A dash-free string splits into a single chunk. -/
theorem splitDash_single (l : Str) (h : ∀ b ∈ l, b ≠ 45) : splitDash l = [l] := by
  have aux : ∀ (m : Str) (acc : Str), (∀ b ∈ m, b ≠ 45) →
      splitDashAux m acc = [acc.reverse ++ m] := by
    intro m
    induction m with
    | nil => intro acc _; simp [splitDashAux]
    | cons b m2 ih =>
      intro acc hm
      have hb : ¬ (b = 45) := hm b (List.mem_cons_self b m2)
      have h2 : ∀ x ∈ m2, x ≠ 45 := fun x hx => hm x (List.mem_cons_of_mem b hx)
      simp only [splitDashAux, if_neg hb, ih (b :: acc) h2, List.reverse_cons,
        List.append_assoc, List.cons_append, List.nil_append]
  simpa [splitDash] using aux l [] h

/-- Splitting `ms-*`. -/
theorem splitDash_ms_star (ms : Nat) :
    splitDash (natToDec ms ++ [45, 42]) = [natToDec ms, [42]] := by
  have h45 : (45 : Nat) :: [42] = [45, 42] := rfl
  have := splitDashAux_chunk (natToDec ms) [42] [] (natToDec_no_dash ms)
  rw [splitDash, ← h45, this]
  rw [splitDash_single [42] (by intro b hb; rw [List.mem_singleton] at hb; omega)]
  simp

/-- C7 counterexample: the claim says a bare millisecond id (`5`, no dash)
is accepted with an auto sequence; the code REJECTS it — validation fails
for any one-part id other than `*`, and `apply` replies the 0-0 error. -/
theorem C7_counterexample :
    isStreamIdValid (some (str ("5"))) = false
    ∧ xaddApply 99 (str ("s")) (some (str ("5"))) [] ⟨[], []⟩ =
        .res ⟨[], []⟩ (some (.error (str ("ERR The ID specified in XADD must be greater than 0-0")))) :=
  ⟨rfl, rfl⟩

/-- C7 amended: XADD's id validation accepts exactly the two-part ids
`x-y` other than `0-0` and the lone id `*`; every other form — in
particular a bare millisecond number with no dash — is rejected, and
`apply` then replies "ERR The ID specified in XADD must be greater than
0-0" without touching the keyspace. -/
theorem C7_id_forms (sid : Str) :
    (isStreamIdValid (some sid) = true ↔
      ((splitDash sid).length = 2 ∧ splitDash sid ≠ [[48], [48]]) ∨ splitDash sid = [[42]])
    ∧ (∀ now key fields db, isStreamIdValid (some sid) = false →
        xaddApply now key (some sid) fields db =
          .res db (some (.error (str ("ERR The ID specified in XADD must be greater than 0-0")))))
    ∧ (∀ ms : Nat, isStreamIdValid (some (natToDec ms)) = false) := by
  refine ⟨?_, ?_, ?_⟩
  · have hne := splitDash_ne_nil sid
    rcases h : splitDash sid with _ | ⟨a, _ | ⟨b, _ | ⟨c, t⟩⟩⟩
    · exact absurd h hne
    · simp [isStreamIdValid, h]
    · by_cases hb : b = [48]
      · subst hb
        simp only [isStreamIdValid, Option.getD_some, h, if_pos rfl]
        constructor
        · intro ha
          exact Or.inl ⟨rfl, by simpa using of_decide_eq_true ha⟩
        · intro ha
          rcases ha with ⟨_, ha⟩ | ha
          · exact decide_eq_true (by simpa using ha)
          · simp at ha
      · simp only [isStreamIdValid, Option.getD_some, h, if_neg hb]
        constructor
        · intro _
          exact Or.inl ⟨rfl, by simp [hb]⟩
        · intro _
          trivial
    · simp [isStreamIdValid, h]
  · intro now key fields db h
    simp [xaddApply, h]
  · intro ms
    rw [isStreamIdValid, Option.getD_some, splitDash_single (natToDec ms) (natToDec_no_dash ms)]
    simp [natToDec_ne_star ms]

/-- C7 witness: the bare id `2` is rejected with the 0-0 error. -/
theorem C7_id_forms_witness :
    xaddApply 11 (str ("q")) (some (natToDec 2)) [] ⟨[], []⟩ =
      .res ⟨[], []⟩ (some (.error (str ("ERR The ID specified in XADD must be greater than 0-0")))) :=
  (C7_id_forms (natToDec 2)).2.1 11 (str ("q")) [] ⟨[], []⟩ ((C7_id_forms (natToDec 2)).2.2 2)

/-- C9 counterexample: INCR on a stream-valued key PANICS
(`unimplemented!("The value is a stream")`), killing the handler task —
it does not surface a RESP error with the connection remaining open. -/
theorem C9_counterexample :
    incrApply 0 (str ("k")) ⟨[(str ("k"), ⟨none, .stream []⟩)], []⟩ = .crash := rfl

/-- C9 amended: INCR on an absent key stores "1" and replies `:1`; on a
key holding a UTF-8 string that does not parse as `u64` it replies
"ERR value is not an integer or out of range" and leaves the keyspace
unchanged (both reply paths keep the connection open); but on a key
holding a stream it PANICS instead of replying an error. -/
theorem C9_incr_cases (now : Nat) (key : Str) (db : State) :
    (dbGet key db = none →
      incrApply now key db = .res (dbSet now key (.str [49]) none db) (some (.integer 1)))
    ∧ (∀ v, dbGet key db = some (.str v) → utf8Valid v = true → parseU64 v = none →
        incrApply now key db =
          .res db (some (.error (str ("ERR value is not an integer or out of range")))))
    ∧ (∀ es, dbGet key db = some (.stream es) → incrApply now key db = .crash) := by
  refine ⟨?_, ?_, ?_⟩
  · intro h
    simp [incrApply, h]
  · intro v h hu hp
    simp [incrApply, h, hu, hp]
  · intro es h
    simp [incrApply, h]

/-- C9 witness: the three cases at concrete inputs. -/
theorem C9_incr_cases_witness :
    incrApply 0 (str ("c")) ⟨[], []⟩ =
      .res (dbSet 0 (str ("c")) (.str [49]) none ⟨[], []⟩) (some (.integer 1))
    ∧ incrApply 0 (str ("s")) ⟨[(str ("s"), ⟨none, .str (str ("abc"))⟩)], []⟩ =
      .res ⟨[(str ("s"), ⟨none, .str (str ("abc"))⟩)], []⟩
        (some (.error (str ("ERR value is not an integer or out of range"))))
    ∧ incrApply 0 (str ("t")) ⟨[(str ("t"), ⟨none, .stream []⟩)], []⟩ = .crash :=
  ⟨(C9_incr_cases 0 (str ("c")) ⟨[], []⟩).1 rfl,
   (C9_incr_cases 0 (str ("s")) _).2.1 (str ("abc")) rfl rfl rfl,
   (C9_incr_cases 0 (str ("t")) _).2.2 [] rfl⟩

/-- C6 counterexample: `XADD s * …` at wall-clock millisecond 7 with a
prior entry `7-0` in the stream: the claim says the sequence resolves to
`0 + 1 = 1` and the reply is the bulk id `7-1`; the code resolves the
sequence of the `*` form to 0 unconditionally, so the new id `7-0` fails
the monotonicity check and XADD replies the "equal or smaller" error. -/
theorem C6_counterexample :
    xaddApply 7 (str ("s")) (some (str ("*"))) []
      ⟨[(str ("s"), ⟨none, .stream [⟨(7, 0), []⟩]⟩)], []⟩
    = .res ⟨[(str ("s"), ⟨none, .stream [⟨(7, 0), []⟩]⟩)], []⟩
        (some (.error
          (str ("ERR The ID specified in XADD is equal or smaller than the target stream top item")))) := rfl

/-- C6 amended: the stated auto-sequence rules hold for the `ms-*` form
(only): with the stream fetched from the keyspace, the resolved sequence
is `last same-ms entry + 1` when one exists, otherwise 0 — except 1 at
millisecond 0 — and when the resolved id exceeds every existing entry the
entry is appended and the resolved `ms-seq` id is replied as a bulk. -/
theorem C6_auto_seq_ms_star (ms now : Nat) (hms : ms < 2 ^ 64) (key : Str)
    (fields : List (Str × Str)) (streams : List StreamData) (db : State)
    (hdb : dbGet key db = some (.stream streams))
    (nextSeq : Nat)
    (hseq : nextSeq =
      (match (streams.reverse).find? (fun sd => decide (sd.id.fst = ms)) with
       | some sd => sd.id.snd + 1
       | none => if ms = 0 then 1 else 0))
    (hmono : ∀ sd ∈ streams, idLt sd.id (ms, nextSeq) = true) :
    xaddApply now key (some (natToDec ms ++ [45, 42])) fields db =
      .res (dbSet now key (.stream (streams ++ [⟨(ms, nextSeq), fields⟩])) none db)
        (some (.bulk (natToDec ms ++ [45] ++ natToDec nextSeq))) := by
  have hsplit := splitDash_ms_star ms
  have hstar := natToDec_ne_star ms
  have hvalid : isStreamIdValid (some (natToDec ms ++ [45, 42])) = true := by
    rw [isStreamIdValid, Option.getD_some, hsplit]
    simp
  have hnseq : xaddNextSeq (some (natToDec ms ++ [45, 42])) streams = some nextSeq := by
    rw [xaddNextSeq, Option.getD_some, hsplit]
    simp only [List.get?_cons_zero, if_neg hstar, parseU64_natToDec ms hms]
    cases hf : (streams.reverse).find? (fun sd => decide (sd.id.fst = ms)) with
    | some sd => rw [hseq, hf]
    | none =>
      rw [hseq, hf]
      by_cases hz : ms = 0
      · subst hz
        rw [if_pos ((natToDec_eq_zero_iff 0).mpr rfl), if_pos rfl]
      · rw [if_neg (fun hc => hz ((natToDec_eq_zero_iff ms).mp hc)), if_neg hz]
  have hgsid : getStreamId (some (natToDec ms ++ [45, 42])) nextSeq now = some (ms, nextSeq) := by
    rw [getStreamId, hsplit]
    simp [if_neg hstar, parseU64_natToDec ms hms]
  have hany : streams.any (fun sd => !(idLt sd.id (ms, nextSeq))) = false := by
    rw [List.any_eq_false]
    intro sd hsd
    simp [hmono sd hsd]
  simp [xaddApply, hvalid, hdb, hnseq, hgsid, hany]

/-- C6 witness: `XADD s 2-* …` on a stream whose last entry is `1-1`
resolves to `2-0` (no prior entry at ms 2), appends it and replies the
bulk id `2-0` — the spec scenario. -/
theorem C6_auto_seq_witness :
    xaddApply 99 (str ("s")) (some (natToDec 2 ++ [45, 42])) []
      ⟨[(str ("s"), ⟨none, .stream [⟨(1, 1), []⟩]⟩)], []⟩
    = .res (dbSet 99 (str ("s")) (.stream ([⟨(1, 1), []⟩] ++ [⟨(2, 0), []⟩])) none
        ⟨[(str ("s"), ⟨none, .stream [⟨(1, 1), []⟩]⟩)], []⟩)
        (some (.bulk (natToDec 2 ++ [45] ++ natToDec 0))) :=
  C6_auto_seq_ms_star 2 99 (by norm_num) (str ("s")) [] [⟨(1, 1), []⟩]
    ⟨[(str ("s"), ⟨none, .stream [⟨(1, 1), []⟩]⟩)], []⟩ rfl 0 rfl
    (by
      intro sd hsd
      rw [List.mem_singleton] at hsd
      subst hsd
      rfl)

/-- The handler's EXEC turn, given that every queued frame parses and the
run does not panic: the collected reply array is written once, MULTI is
left, the queue is cleared and the keyspace advances to the run result. -/
theorem handlerStep_exec (f : ApplyFn) (st : HState) (cmds : List Command)
    (replies : List RESP) (db2 : State) (sz : Nat)
    (hm : st.isMulti = true)
    (hparse : parseAll st.transaction = some cmds)
    (hrun : specRun f cmds st.db = some (replies, db2)) :
    handlerStep f st (.array [.bulk (str ("EXEC"))]) sz =
      .ok [.array replies] { st with isMulti := false, transaction := [], db := db2 } := by
  have hfr : fromResp (.array [.bulk (str ("EXEC"))]) = .ok Command.exec := rfl
  have hexec := execLoop_eq_specRun f st.transaction st.db cmds hparse
  rw [hrun] at hexec
  simp [handlerStep, hm, hfr, hexec]

/-- C5: when the client is in MULTI, EXEC parses each queued RESP array
into a command, applies them in queue order threading the keyspace,
collects the (`Some`) replies in that order into ONE array RESP written to
the client, clears the queue and leaves MULTI; an error reply produced by
a sub-command sits in its slot of `replies` and the commands after it
still run — the final keyspace is the reply-independent fold `specDb`
over ALL queued commands. -/
theorem C5_exec_transaction (f : ApplyFn) (st : HState) (cmds : List Command)
    (replies : List RESP) (db2 : State) (sz : Nat)
    (hm : st.isMulti = true)
    (hparse : parseAll st.transaction = some cmds)
    (hrun : specRun f cmds st.db = some (replies, db2)) :
    handlerStep f st (.array [.bulk (str ("EXEC"))]) sz =
      .ok [.array replies] { st with isMulti := false, transaction := [], db := db2 }
    ∧ db2 = specDb f cmds st.db :=
  ⟨handlerStep_exec f st cmds replies db2 sz hm hparse hrun,
   specRun_db f cmds st.db replies db2 hrun⟩

/-- C5 witness: the spec scenario `MULTI; SET a 1; INCR a; EXEC` replies
`*2\r\n+OK\r\n:2\r\n` and leaves MULTI with the queue cleared. -/
theorem C5_exec_transaction_witness :
    handlerStep (applyModel 0) stMulti (.array [.bulk (str ("EXEC"))]) 14 =
      .ok [.array [.simple (str ("OK")), .integer 2]]
        { stMulti with
          isMulti := false
          transaction := []
          db := dbSet 0 (str ("a")) (.str (natToDec 2)) none
            (dbSet 0 (str ("a")) (.str (str ("1"))) none ⟨[], []⟩) }
    ∧ dbSet 0 (str ("a")) (.str (natToDec 2)) none
        (dbSet 0 (str ("a")) (.str (str ("1"))) none ⟨[], []⟩)
      = specDb (applyModel 0)
          [Command.set (str ("a")) (str ("1")) none, Command.incr (str ("a"))] stMulti.db :=
  C5_exec_transaction (applyModel 0) stMulti
    [Command.set (str ("a")) (str ("1")) none, Command.incr (str ("a"))]
    [.simple (str ("OK")), .integer 2]
    (dbSet 0 (str ("a")) (.str (natToDec 2)) none
      (dbSet 0 (str ("a")) (.str (str ("1"))) none ⟨[], []⟩))
    14 rfl rfl rfl

/-- The command-name dispatch of `from_resp` on a SET frame (the name is
concrete, so the dispatch reduces definitionally to the SET arm). -/
theorem fromRespCore_set (key value : Str) :
    fromRespCore [.bulk (str ("SET")), .bulk key, .bulk value] =
      (match setFromParts [.bulk key, .bulk value] with
       | .inl e => .inl e
       | .inr ((k, v, ex), r1) => .inr (Command.set k v ex, r1)) := rfl

/-- `Set::from_parts` on a two-bulk argument list. -/
theorem setFromParts_bulks (key value : Str) (hk : utf8Valid key = true) :
    setFromParts [.bulk key, .bulk value] = .inr ((key, value, none), []) := by
  simp [setFromParts, nextString, nextByte, strOf?, bytesOf?, hk]

/-- `from_resp` of a SET frame with no TTL argument. -/
theorem fromResp_set (key value : Str) (hk : utf8Valid key = true) :
    fromResp (.array [.bulk (str ("SET")), .bulk key, .bulk value]) =
      .ok (Command.set key value none) := by
  simp only [fromResp, fromRespCore_set, setFromParts_bulks key value hk, List.isEmpty_nil,
    if_true]

/-- C10: a SET executed through EXEC (queued under MULTI) writes the key
to the store but appends nothing to any replica connection and leaves
`master_repl_offset` and every replica's `repl_offset` unchanged; the
same SET processed outside a transaction fans the raw frame out to every
replica and bumps the master offset and every replica offset by the
frame's byte length. -/
theorem C10_set_in_exec_vs_direct (f : ApplyFn) (now : Nat) (key value : Str) (sz : Nat)
    (hk : utf8Valid key = true)
    (hf : ∀ d, f (Command.set key value none) d =
      .res (dbSet now key (.str value) none d) (some (.simple (str ("OK"))))) :
    (∀ st : HState, st.isMulti = true →
      st.transaction = [.array [.bulk (str ("SET")), .bulk key, .bulk value]] →
      handlerStep f st (.array [.bulk (str ("EXEC"))]) sz =
        .ok [.array [.simple (str ("OK"))]]
          { st with
            isMulti := false
            transaction := []
            db := dbSet now key (.str value) none st.db })
    ∧ (∀ st : HState, st.isMulti = false →
      handlerStep f st (.array [.bulk (str ("SET")), .bulk key, .bulk value]) sz =
        .ok [.simple (str ("OK"))]
          { st with
            db := dbSet now key (.str value) none st.db
            masterReplOffset := st.masterReplOffset + sz
            replicas := st.replicas.map (fun r =>
              ⟨r.replOffset + sz,
               r.sent ++ [.array [.bulk (str ("SET")), .bulk key, .bulk value]]⟩) }) := by
  constructor
  · intro st hm ht
    have hparse : parseAll st.transaction = some [Command.set key value none] := by
      rw [ht]
      simp [parseAll, fromResp_set key value hk]
    have hrun : specRun f [Command.set key value none] st.db =
        some ([.simple (str ("OK"))], dbSet now key (.str value) none st.db) := by
      simp [specRun, hf]
    exact handlerStep_exec f st [Command.set key value none] [.simple (str ("OK"))]
      (dbSet now key (.str value) none st.db) sz hm hparse hrun
  · intro st hm
    have hfr := fromResp_set key value hk
    simp only [handlerStep, hm, Bool.false_eq_true, if_false, hfr]
    simp [affectsOffset, hf, List.map_map, Function.comp]

/-- C10 witness: both handler paths at a concrete state with one replica
(offset 3) and master offset 5: inside EXEC nothing moves; outside, the
frame is fanned out and both offsets grow by the frame length 31. -/
theorem C10_set_in_exec_vs_direct_witness :
    (handlerStep (applyModel 0)
        ⟨true, [.array [.bulk (str ("SET")), .bulk (str ("a")), .bulk (str ("1"))]],
         ⟨[], []⟩, 5, [⟨3, []⟩]⟩
        (.array [.bulk (str ("EXEC"))]) 31 =
      .ok [.array [.simple (str ("OK"))]]
        ⟨false, [], dbSet 0 (str ("a")) (.str (str ("1"))) none ⟨[], []⟩, 5, [⟨3, []⟩]⟩)
    ∧ (handlerStep (applyModel 0) ⟨false, [], ⟨[], []⟩, 5, [⟨3, []⟩]⟩
        (.array [.bulk (str ("SET")), .bulk (str ("a")), .bulk (str ("1"))]) 31 =
      .ok [.simple (str ("OK"))]
        ⟨false, [], dbSet 0 (str ("a")) (.str (str ("1"))) none ⟨[], []⟩, 36,
         [⟨34, [.array [.bulk (str ("SET")), .bulk (str ("a")), .bulk (str ("1"))]]⟩]⟩) :=
  ⟨(C10_set_in_exec_vs_direct (applyModel 0) 0 (str ("a")) (str ("1")) 31 rfl
      (fun _ => rfl)).1 _ rfl rfl,
   (C10_set_in_exec_vs_direct (applyModel 0) 0 (str ("a")) (str ("1")) 31 rfl
      (fun _ => rfl)).2 _ rfl⟩

/-- ASCII byte lists pass fueled UTF-8 validation. -/
theorem utf8ValidF_ascii (fuel : Nat) : ∀ l : Str, l.length ≤ fuel →
    (∀ b ∈ l, b ≤ 127) → utf8ValidF fuel l = true := by
  induction fuel with
  | zero =>
    intro l hl _
    cases l with
    | nil => rfl
    | cons b t => simp at hl
  | succ m ih =>
    intro l hl h
    cases l with
    | nil => rfl
    | cons b t =>
      have hb : b ≤ 127 := h b (List.mem_cons_self b t)
      have hlt : t.length ≤ m := by
        simp only [List.length_cons] at hl
        omega
      simp only [utf8ValidF, if_pos hb]
      exact ih t hlt (fun x hx => h x (List.mem_cons_of_mem b hx))

/-- ASCII byte lists are valid UTF-8. -/
theorem utf8Valid_ascii (l : Str) (h : ∀ b ∈ l, b ≤ 127) : utf8Valid l = true :=
  utf8ValidF_ascii l.length l le_rfl h

/-- A list without carriage returns has no CRLF pair. -/
theorem noCRLFpair_of_no13 (l : Str) (h : ∀ b ∈ l, b ≠ 13) : noCRLFpair l = true := by
  induction l with
  | nil => rfl
  | cons a t ih =>
    cases t with
    | nil => rfl
    | cons b r =>
      have ha : a ≠ 13 := h a (List.mem_cons_self a (b :: r))
      have hcond : ¬ (a = 13 ∧ b = 10) := fun hc => ha hc.1
      simp only [noCRLFpair, if_neg hcond]
      exact ih (fun x hx => h x (List.mem_cons_of_mem a hx))

/-- `get_line` finds the terminator right after a CRLF-free line. -/
theorem getLine_append (l : Str) (rest : Str) (h : noCRLFpair l = true) :
    getLine (l ++ 13 :: 10 :: rest) = .ok (l, rest) := by
  induction l with
  | nil => simp [getLine]
  | cons a t ih =>
    cases t with
    | nil =>
      have hcond : ¬ (a = 13 ∧ (13 : Nat) = 10) := fun hc => absurd hc.2 (by omega)
      simp [getLine, hcond]
    | cons b r =>
      have hcond : ¬ (a = 13 ∧ b = 10) := by
        intro hc
        simp only [noCRLFpair, if_pos hc] at h
        exact absurd h (by simp)
      have ht : noCRLFpair (b :: r) = true := by
        simpa only [noCRLFpair, if_neg hcond] using h
      have ih2 := ih ht
      simp only [List.cons_append] at ih2 ⊢
      rw [getLine, if_neg hcond, ih2]

/-- `get_decimal` reads back a rendered decimal followed by CRLF. -/
theorem getDecimal_append (n : Nat) (rest : Str) (hn : n < 2 ^ 64) :
    getDecimal (natToDec n ++ 13 :: 10 :: rest) = .ok (n, rest) := by
  have h1 := getLine_append (natToDec n) rest
    (noCRLFpair_of_no13 _ (fun b hb => by have := natToDec_digits n b hb; omega))
  have h2 : utf8Valid (natToDec n) = true :=
    utf8Valid_ascii _ (fun b hb => by have := natToDec_digits n b hb; omega)
  simp [getDecimal, POut.bind, h1, h2, parseU64_natToDec n hn]

/-- A decimal that fits `write_decimal`'s 2-byte buffer is below 100. -/
theorem lt100_of_len2 (n : Nat) (h : (natToDec n).length ≤ 2) : n < 100 := by
  by_contra hc
  push_neg at hc
  have h10 : ¬ (n < 10) := by omega
  have h10b : ¬ (n / 10 < 10) := by omega
  have e1 : natToDec n = natToDec (n / 10) ++ [48 + n % 10] := by
    rw [natToDec, if_neg h10]
  have hne := natToDec_ne_nil (n / 10)
  have hlen1 : 1 ≤ (natToDec (n / 10)).length := by
    cases hh : natToDec (n / 10) with
    | nil => exact absurd hh hne
    | cons x xs => simp
  have e2 : natToDec (n / 10) = natToDec (n / 10 / 10) ++ [48 + n / 10 % 10] := by
    rw [natToDec, if_neg h10b]
  have hne2 := natToDec_ne_nil (n / 10 / 10)
  have hlen2 : 1 ≤ (natToDec (n / 10 / 10)).length := by
    cases hh : natToDec (n / 10 / 10) with
    | nil => exact absurd hh hne2
    | cons x xs => simp
  rw [e1] at h
  rw [e2] at h
  rw [List.length_append, List.length_append] at h
  simp only [List.length_cons, List.length_nil] at h
  omega

/-- Unpack a successful `writeDecimal`. -/
theorem writeDecimal_some (n : Nat) (d : Str) (h : writeDecimal n = some d) :
    d = natToDec n ++ [13, 10] ∧ n < 100 := by
  rw [writeDecimal] at h
  by_cases hlen : (natToDec n).length ≤ 2
  · rw [if_pos hlen] at h
    exact ⟨(Option.some_inj.mp h).symm, lt100_of_len2 n hlen⟩
  · rw [if_neg hlen] at h
    exact absurd h (by simp)

/-- Round-trip core: parsing the encoding of a well-formed value yields the
value back and consumes exactly its bytes, for any following bytes and any
fuel above the value's size. -/
theorem parse_writeValue_aux :
    ∀ (k : Nat) (v : RESP), sizeOf v ≤ k → wfResp v = true →
      ∀ (bs rest : Str) (fuel : Nat), writeValue v = some bs → sizeOf v < fuel →
        parseResp fuel (bs ++ rest) = .ok (v, rest) := by
  intro k
  induction k using Nat.strong_induction_on with
  | _ k ih =>
    intro v hk hwf bs rest fuel henc hfe
    cases fuel with
    | zero => omega
    | succ m =>
      cases v with
      | simple s =>
        rw [wfResp, Bool.and_eq_true] at hwf
        simp only [writeValue, Option.some_inj] at henc
        subst henc
        have hl : (43 :: s ++ [13, 10]) ++ rest = 43 :: (s ++ 13 :: 10 :: rest) := by simp
        rw [hl]
        simp [parseResp, getU8, POut.bind, getLine_append s rest hwf.2, hwf.1]
      | error s =>
        rw [wfResp, Bool.and_eq_true] at hwf
        simp only [writeValue, Option.some_inj] at henc
        subst henc
        have hl : (45 :: s ++ [13, 10]) ++ rest = 45 :: (s ++ 13 :: 10 :: rest) := by simp
        rw [hl]
        simp [parseResp, getU8, POut.bind, getLine_append s rest hwf.2, hwf.1]
      | integer n =>
        simp only [writeValue] at henc
        cases hw : writeDecimal n with
        | none => rw [hw] at henc; exact absurd henc (by simp)
        | some d =>
          rw [hw] at henc
          simp only [Option.map_some', Option.some_inj] at henc
          subst henc
          obtain ⟨hd, hn100⟩ := writeDecimal_some n d hw
          subst hd
          have hn : n < 2 ^ 64 := lt_of_lt_of_le hn100 (by norm_num)
          have hl : (58 :: (natToDec n ++ [13, 10])) ++ rest =
              58 :: (natToDec n ++ 13 :: 10 :: rest) := by simp
          rw [hl]
          simp [parseResp, getU8, POut.bind, getDecimal_append n rest hn]
      | bulk d =>
        simp only [writeValue] at henc
        cases hw : writeDecimal d.length with
        | none => rw [hw] at henc; exact absurd henc (by simp)
        | some dl =>
          rw [hw] at henc
          simp only [Option.map_some', Option.some_inj] at henc
          subst henc
          obtain ⟨hd, hn100⟩ := writeDecimal_some d.length dl hw
          subst hd
          have hn : d.length < 2 ^ 64 := lt_of_lt_of_le hn100 (by norm_num)
          have hl : (36 :: (natToDec d.length ++ [13, 10]) ++ d ++ [13, 10]) ++ rest =
              36 :: (natToDec d.length ++ 13 :: 10 :: (d ++ 13 :: 10 :: rest)) := by simp
          rw [hl]
          obtain ⟨a, t, hat⟩ : ∃ a t, natToDec d.length = a :: t := by
            cases hh : natToDec d.length with
            | nil => exact absurd hh (natToDec_ne_nil _)
            | cons x xs => exact ⟨x, xs, rfl⟩
          have ha : 48 ≤ a ∧ a ≤ 57 :=
            natToDec_digits _ a (by rw [hat]; exact List.mem_cons_self a t)
          have ha45 : ¬ (a = 45) := by omega
          have hpk : peakU8 (natToDec d.length ++ 13 :: 10 :: (d ++ 13 :: 10 :: rest)) =
              .ok a := by rw [hat]; rfl
          have hnl : ¬ ((d ++ 13 :: 10 :: rest).length < d.length) := by
            simp [List.length_append]
          have htk : (d ++ 13 :: 10 :: rest).take d.length = d := List.take_left d _
          have hdr : (d ++ 13 :: 10 :: rest).drop d.length = 13 :: 10 :: rest :=
            List.drop_left d _
          simp [parseResp, getU8, POut.bind, hpk, ha45,
            getDecimal_append d.length _ hn, hnl, htk, hdr]
      | file d =>
        rw [wfResp] at hwf
        exact absurd hwf (by simp)
      | null =>
        simp only [writeValue, Option.some_inj] at henc
        subst henc
        have hl : ([36, 45, 49, 13, 10] : Str) ++ rest =
            36 :: 45 :: 49 :: 13 :: 10 :: rest := by simp
        rw [hl]
        simp [parseResp, getU8, peakU8, POut.bind, getLine]
      | array items =>
        rw [wfResp] at hwf
        simp only [writeValue] at henc
        cases hw : writeDecimal items.length with
        | none => rw [hw] at henc; exact absurd henc (by simp)
        | some dl =>
          cases hb : writeList items with
          | none => rw [hw, hb] at henc; exact absurd henc (by simp)
          | some body =>
            rw [hw, hb] at henc
            simp only [Option.some_inj] at henc
            subst henc
            obtain ⟨hd, hn100⟩ := writeDecimal_some items.length dl hw
            subst hd
            have hn : items.length < 2 ^ 64 := lt_of_lt_of_le hn100 (by norm_num)
            have harr : sizeOf (RESP.array items) = 1 + sizeOf items := by simp
            have hsz : sizeOf items < m := by omega
            have hszk : sizeOf items < k := by omega
            have inner : ∀ (is : List RESP), wfList is = true → sizeOf is ≤ sizeOf items →
                ∀ (body2 rest2 : Str), writeList is = some body2 →
                  parseManyF (parseResp m) is.length (body2 ++ rest2) = .ok (is, rest2) := by
              intro is
              induction is with
              | nil =>
                intro _ _ body2 rest2 he2
                simp only [writeList, Option.some_inj] at he2
                subst he2
                simp [parseManyF]
              | cons e es ihe =>
                intro hwl hszle body2 rest2 he2
                simp only [writeList] at he2
                cases he : writeValue e with
                | none => rw [he] at he2; exact absurd he2 (by simp)
                | some be =>
                  cases hes : writeList es with
                  | none => rw [he, hes] at he2; exact absurd he2 (by simp)
                  | some bes =>
                    rw [he, hes] at he2
                    simp only [Option.some_inj] at he2
                    subst he2
                    rw [wfList, Bool.and_eq_true] at hwl
                    have hcons : sizeOf (e :: es) = 1 + sizeOf e + sizeOf es := by simp
                    have hse : sizeOf e < sizeOf items := by omega
                    have hkb : sizeOf e < k := by omega
                    have hfm : sizeOf e < m := by omega
                    have hp := ih (sizeOf e) hkb e le_rfl hwl.1 be (bes ++ rest2) m he hfm
                    have hes2 : sizeOf es ≤ sizeOf items := by omega
                    have hrest := ihe hwl.2 hes2 bes rest2 hes
                    have hl2 : (be ++ bes) ++ rest2 = be ++ (bes ++ rest2) := by simp
                    rw [List.length_cons, hl2]
                    simp [parseManyF, POut.bind, hp, hrest]
            have hmany := inner items hwf le_rfl body rest hb
            have hl : (42 :: (natToDec items.length ++ [13, 10]) ++ body) ++ rest =
                42 :: (natToDec items.length ++ 13 :: 10 :: (body ++ rest)) := by simp
            rw [hl]
            simp [parseResp, getU8, POut.bind,
              getDecimal_append items.length _ hn, hmany]

/-- The encoded `File` variant followed by arbitrary bytes: parsed back as
`Bulk` when a CRLF follows, as `File` when nothing or two or more
non-CRLF bytes follow, and PANICS (slice out of range) when exactly one
byte follows. -/
theorem parse_file_bytes (data bs rest : Str) (fuel : Nat)
    (henc : writeValue (.file data) = some bs) (hf : 0 < fuel) :
    parseResp fuel (bs ++ rest) = fileParseSpec data rest := by
  cases fuel with
  | zero => omega
  | succ m =>
    simp only [writeValue] at henc
    cases hw : writeDecimal data.length with
    | none => rw [hw] at henc; exact absurd henc (by simp)
    | some dl =>
      rw [hw] at henc
      simp only [Option.map_some', Option.some_inj] at henc
      subst henc
      obtain ⟨hd, hn100⟩ := writeDecimal_some data.length dl hw
      subst hd
      have hn : data.length < 2 ^ 64 := lt_of_lt_of_le hn100 (by norm_num)
      have hl : (36 :: (natToDec data.length ++ [13, 10]) ++ data) ++ rest =
          36 :: (natToDec data.length ++ 13 :: 10 :: (data ++ rest)) := by simp
      rw [hl]
      obtain ⟨a, t, hat⟩ : ∃ a t, natToDec data.length = a :: t := by
        cases hh : natToDec data.length with
        | nil => exact absurd hh (natToDec_ne_nil _)
        | cons x xs => exact ⟨x, xs, rfl⟩
      have ha : 48 ≤ a ∧ a ≤ 57 :=
        natToDec_digits _ a (by rw [hat]; exact List.mem_cons_self a t)
      have ha45 : ¬ (a = 45) := by omega
      have hpk : peakU8 (natToDec data.length ++ 13 :: 10 :: (data ++ rest)) = .ok a := by
        rw [hat]; rfl
      have hnl : ¬ ((data ++ rest).length < data.length) := by
        simp [List.length_append]
      have htk : (data ++ rest).take data.length = data := List.take_left data rest
      have hdr : (data ++ rest).drop data.length = rest := List.drop_left data rest
      cases rest with
      | nil =>
        simp only [List.append_nil] at hpk hnl htk hdr ⊢
        simp [parseResp, getU8, POut.bind, hpk, ha45,
          getDecimal_append data.length data hn, hnl, htk, hdr, fileParseSpec]
      | cons x xs =>
        cases xs with
        | nil =>
          simp [parseResp, getU8, POut.bind, hpk, ha45,
            getDecimal_append data.length (data ++ [x]) hn, hnl, htk, hdr, fileParseSpec]
        | cons y r2 =>
          by_cases hxy : x = 13 ∧ y = 10
          · obtain ⟨hx, hy⟩ := hxy
            subst hx
            subst hy
            simp [parseResp, getU8, POut.bind, hpk, ha45,
              getDecimal_append data.length (data ++ 13 :: 10 :: r2) hn, hnl, htk, hdr,
              fileParseSpec]
          · simp [parseResp, getU8, POut.bind, hpk, ha45,
              getDecimal_append data.length (data ++ x :: y :: r2) hn, hnl, htk, hdr, hxy,
              fileParseSpec]

/-- C2 counterexample: the claim quantifies over every encodable value,
but a `Simple` whose text embeds CRLF does not round-trip: `Simple
"a\r\nb"` encodes to `+a\r\nb\r\n`, which parses to `Simple "a"` with
`b\r\n` left over. -/
theorem C2_counterexample :
    writeValue (.simple [97, 13, 10, 98]) = some [43, 97, 13, 10, 98, 13, 10]
    ∧ parseResp 5 [43, 97, 13, 10, 98, 13, 10] = .ok (.simple [97], [98, 13, 10])
    ∧ RESP.simple [97] ≠ RESP.simple [97, 13, 10, 98] :=
  ⟨rfl, rfl, by
    intro h
    injection h with h2
    exact absurd h2 (by decide)⟩

/-- C2 amended: for every value the encoder emits whose `Simple`/`Error`
texts contain no CRLF pair (and excluding `File`), parsing the emitted
bytes yields the value back, consuming exactly those bytes, for any
following stream bytes; the `File` variant round-trips to `Bulk` exactly
when the next two bytes in the stream are CRLF. -/
theorem C2_roundtrip :
    (∀ (v : RESP) (bs rest : Str) (fuel : Nat), wfResp v = true → writeValue v = some bs →
      sizeOf v < fuel → parseResp fuel (bs ++ rest) = .ok (v, rest))
    ∧ (∀ (data bs rest : Str) (fuel : Nat), writeValue (.file data) = some bs → 0 < fuel →
      ((∃ r2, parseResp fuel (bs ++ rest) = .ok (.bulk data, r2)) ↔ rest.take 2 = [13, 10])) := by
  constructor
  · intro v bs rest fuel hwf henc hfe
    exact parse_writeValue_aux (sizeOf v) v le_rfl hwf bs rest fuel henc hfe
  · intro data bs rest fuel henc hf
    rw [parse_file_bytes data bs rest fuel henc hf]
    cases rest with
    | nil => simp [fileParseSpec]
    | cons x xs =>
      cases xs with
      | nil => simp [fileParseSpec]
      | cons y r2 =>
        by_cases hxy : x = 13 ∧ y = 10
        · obtain ⟨hx, hy⟩ := hxy
          subst hx
          subst hy
          simp [fileParseSpec]
        · simp only [fileParseSpec, if_neg hxy]
          constructor
          · intro hex
            rcases hex with ⟨r3, hr3⟩
            exact absurd hr3 (by simp)
          · intro htk
            simp only [List.take_succ_cons, List.take_zero] at htk
            have h2 : x = 13 ∧ y = 10 := by
              have := List.cons.injEq x [y] 13 [10] ▸ htk
              constructor
              · exact (List.cons.inj htk).1
              · exact (List.cons.inj (List.cons.inj htk).2).1
            exact absurd h2 hxy

/-- C2 witness: a concrete well-formed array round-trips, and a `File`
payload followed by CRLF parses back as `Bulk`. -/
theorem C2_roundtrip_witness :
    parseResp 300 ([42, 49, 13, 10, 43, 79, 75, 13, 10] ++ []) =
      .ok (.array [.simple [79, 75]], [])
    ∧ ((∃ r2, parseResp 300 ([36, 49, 13, 10, 82] ++ [13, 10, 65]) = .ok (.bulk [82], r2))
        ↔ ([13, 10, 65] : Str).take 2 = [13, 10]) :=
  ⟨C2_roundtrip.1 (.array [.simple [79, 75]]) [42, 49, 13, 10, 43, 79, 75, 13, 10] [] 300
      rfl (by simp [writeValue, writeList, writeDecimal, natToDec]) (by decide),
   C2_roundtrip.2 [82] [36, 49, 13, 10, 82] [13, 10, 65] 300
      (by simp [writeValue, writeDecimal, natToDec]) (by omega)⟩

end RedisModel
